/-
Verification of the Slack response-time monitor (`bot.py`).

The core logic of the program is shallowly embedded below:
* instants are epoch seconds, modelled as exact rationals (`ℚ`); Python
  `datetime` subtraction/comparison on timezone-aware datetimes coincides with
  arithmetic on the underlying epoch seconds;
* a timezone is modelled as the function taking an instant to the local
  wall-clock data `(weekday, seconds-of-day)` it determines; `utcLocal` is the
  UTC instance (`ZoneInfo("UTC")`);
* Python dicts for messages/channels become structures with `Option` fields
  (a missing key is `none`); Python truthiness of a string is `≠ ""`, of an
  optional float is `isSome` together with `≠ 0`;
* `Dict[str, str]` becomes an association list queried by `dict_get`;
* the I/O performed per channel by `check_channels` (CSV rows, reminder DM,
  warning log) is reified as a list of `Effect`s in program order.
-/
import Mathlib

/-- Local wall-clock data of an instant in some timezone: `weekday` follows
Python's convention (`0 = Monday, …, 6 = Sunday`); `tod` is the local
time-of-day measured in seconds since local midnight (Python `datetime.time`
comparisons are exactly comparisons of this quantity). -/
structure LocalTime where
  weekday : ℤ
  tod : ℚ
deriving DecidableEq

/-- The UTC timezone: epoch second `0` is Thursday (weekday `3`)
1970-01-01 00:00:00. -/
def utcLocal (moment : ℚ) : LocalTime :=
  { weekday := (⌊moment / 86400⌋ + 3) % 7
    tod := moment - 86400 * (⌊moment / 86400⌋ : ℚ) }

/-- `BusinessHours` (bot.py lines 33-44).  `start`/`endTime` are the
`datetime.time` bounds as seconds-of-day (`end` is a Lean keyword, hence
`endTime`); `timezone` is the conversion function the IANA zone id denotes. -/
structure BusinessHours where
  start : ℚ := 8 * 3600
  endTime : ℚ := 17 * 3600
  timezone : ℚ → LocalTime := utcLocal
  weekdays_only : Bool := true

/-- `BusinessHours.is_open` (bot.py lines 40-44): convert the moment to the
configured timezone, close on weekends when `weekdays_only`, otherwise open
iff `start ≤ local_time ≤ end` (both inclusive). -/
def BusinessHours.is_open (bh : BusinessHours) (moment : ℚ) : Bool :=
  let local_now := bh.timezone moment
  if bh.weekdays_only && decide (5 ≤ local_now.weekday) then false
  else decide (bh.start ≤ local_now.tod ∧ local_now.tod ≤ bh.endTime)

/-- A raw Slack message as consumed by the monitor: `ts` is the (always
present) timestamp in epoch seconds; `user`, `bot_id`, `subtype`, `text` are
optional dict keys. -/
structure RawMessage where
  ts : ℚ
  user : Option String := none
  bot_id : Option String := none
  subtype : Option String := none
  text : Option String := none
deriving DecidableEq

/-- The fields of `MonitorConfig` (bot.py lines 47-60) that the monitoring
logic reads.  `channel_owners` is the id-or-name → owner dict as an
association list; the two thresholds are Python ints, embedded in `ℚ` so that
they compare against fractional hour counts exactly as in Python. -/
structure MonitorConfig where
  channel_owners : List (String × String)
  team_member_ids : List String
  business_hours : BusinessHours := {}
  business_reply_hours : ℚ := 4
  overall_reply_hours : ℚ := 24

/-- `SlackMonitor._is_valid_message` (bot.py lines 232-235). -/
def is_valid_message (msg : RawMessage) : Bool :=
  if msg.subtype = some "channel_join" ∨ msg.subtype = some "bot_message" ∨
      msg.subtype = some "channel_topic" ∨ msg.subtype = some "channel_purpose" then
    false
  else msg.user.isSome || msg.bot_id.isSome

/-- `SlackMonitor._is_client_message` (bot.py lines 237-241): a falsy
(missing or empty) user id is not a client; otherwise client iff the user id
is not a configured team member. -/
def is_client_message (cfg : MonitorConfig) (msg : RawMessage) : Bool :=
  match msg.user with
  | none => false
  | some u => if u = "" then false else ! cfg.team_member_ids.contains u

/-- The `ExchangeRecord` dict built by `_evaluate_channel` (bot.py lines
225-230). -/
structure ExchangeRecord where
  client_ts : ℚ
  client_text : String
  team_reply_ts : Option ℚ
  team_reply_text : Option String
deriving DecidableEq

/-- One iteration of the scan loop of `_evaluate_channel` (bot.py lines
214-221), acting on the state `(last_client_msg, last_team_reply)`. -/
def scan_step (cfg : MonitorConfig) (st : Option RawMessage × Option RawMessage)
    (msg : RawMessage) : Option RawMessage × Option RawMessage :=
  if ! is_valid_message msg then st
  else if is_client_message cfg msg then (some msg, none)
  else match st.1 with
    | some _ => (st.1, some msg)
    | none => st

/-- `SlackMonitor._evaluate_channel` (bot.py lines 207-230): sort ascending by
timestamp (Python's stable `sorted`, key `float(m.get("ts", 0.0))`), scan, and
build the record from the final state. -/
def evaluate_channel (cfg : MonitorConfig) (messages : List RawMessage) :
    Option ExchangeRecord :=
  if messages.isEmpty then none
  else
    let sorted_messages := messages.mergeSort (fun a b => decide (a.ts ≤ b.ts))
    let st := sorted_messages.foldl (scan_step cfg) (none, none)
    match st.1 with
    | none => none
    | some c =>
      some { client_ts := c.ts
             client_text := c.text.getD ""
             team_reply_ts := st.2.map RawMessage.ts
             team_reply_text := st.2.map (fun r => r.text.getD "") }

/-- The `threshold` local of `_decide_status` (bot.py lines 254-257):
`business_reply_hours` when `now` is within business hours, else
`overall_reply_hours`. -/
def threshold_for (cfg : MonitorConfig) (now : ℚ) : ℚ :=
  if cfg.business_hours.is_open now then cfg.business_reply_hours
  else cfg.overall_reply_hours

/-- `SlackMonitor._decide_status` (bot.py lines 243-258).  The Python guard
`if record.get("team_reply_ts")` is dict-value truthiness: the reply timestamp
is present and nonzero.  `datetime` comparisons and `(now - client_dt)
.total_seconds()` reduce to epoch-second arithmetic. -/
def decide_status (cfg : MonitorConfig) (record : ExchangeRecord) (now : ℚ) :
    String :=
  let reply_present : Bool :=
    match record.team_reply_ts with
    | some t => decide (t ≠ 0)
    | none => false
  let reply_after : Bool :=
    match record.team_reply_ts with
    | some t => decide (record.client_ts < t)
    | none => false
  if reply_present && reply_after then "answered"
  else
    let hours_since_client := (now - record.client_ts) / 3600
    if threshold_for cfg now ≤ hours_since_client then "remind" else "waiting"

/-- Python `str.replace(old, new)` specialised to a one-character needle: scan
left to right, never rescanning emitted replacement text (strings are modelled
as `List Char`). -/
def str_replace1 (needle : Char) (rep : List Char) : List Char → List Char
  | [] => []
  | x :: xs =>
    if x = needle then rep ++ str_replace1 needle rep xs
    else x :: str_replace1 needle rep xs

/-- `_csv_escape` (bot.py lines 310-313): newlines and carriage returns become
spaces, double quotes are doubled, and the result is wrapped in double quotes
(`(text or "")` is the identity on genuine strings since `"" or "" = ""`). -/
def csv_escape (text : List Char) : List Char :=
  let sanitized := str_replace1 '\r' [' '] (str_replace1 '\n' [' '] text)
  let sanitized2 := str_replace1 '"' ['"', '"'] sanitized
  '"' :: sanitized2 ++ ['"']

/-- The channel dict fields `_resolve_owner` reads. -/
structure ChannelInfo where
  id : Option String := none
  name : Option String := none
  name_normalized : Option String := none

/-- Python `dict` lookup on an association list (keys are unique in a real
dict; `find?` returns the first binding). -/
def dict_get (owners : List (String × String)) (k : String) : Option String :=
  (owners.find? (fun p => p.1 == k)).map Prod.snd

/-- The `channel_name` local of `_resolve_owner` (bot.py line 183):
`channel.get("name") or channel.get("name_normalized")`, where a missing or
empty `name` falls through to `name_normalized`. -/
def effective_channel_name (channel : ChannelInfo) : Option String :=
  match channel.name with
  | some n => if n = "" then channel.name_normalized else some n
  | none => channel.name_normalized

/-- `SlackMonitor._resolve_owner` (bot.py lines 181-188): try the channel id
as a key first, then the channel name (skipped entirely when falsy). -/
def resolve_owner (owners : List (String × String)) (channel : ChannelInfo) :
    Option String :=
  match channel.id.bind (dict_get owners) with
  | some o => some o
  | none =>
    match effective_channel_name channel with
    | some n => if n = "" then none else dict_get owners n
    | none => none

/-- The observable actions `check_channels` performs for one channel, in
program order. -/
inductive Effect where
  | summary_row (channel_name channel_id : String) (record : ExchangeRecord)
      (status : String)
  | trail_row (channel_name channel_id : String) (record : ExchangeRecord)
      (status : String)
  | reminder_dm (channel_id owner_id : String)
  | warn_no_owner (channel_name channel_id : String)
  | info_no_messages (channel_id channel_name : String)
deriving DecidableEq

/-- The per-channel body of `SlackMonitor.check_channels` (bot.py lines
122-144), reified as the list of effects it performs: evaluate, decide, write
the summary and trail rows, then either send one reminder DM (owner truthy),
or log a warning (`remind` with falsy owner), or do nothing more. -/
def process_channel (cfg : MonitorConfig) (now : ℚ)
    (channel_id channel_name : String) (owner_id : Option String)
    (messages : List RawMessage) : List Effect :=
  match evaluate_channel cfg messages with
  | none => [Effect.info_no_messages channel_id channel_name]
  | some record =>
    let status := decide_status cfg record now
    let base := [Effect.summary_row channel_name channel_id record status,
                 Effect.trail_row channel_name channel_id record status]
    if status = "remind" then
      match owner_id with
      | some o =>
        if o = "" then base ++ [Effect.warn_no_owner channel_name channel_id]
        else base ++ [Effect.reminder_dm channel_id o]
      | none => base ++ [Effect.warn_no_owner channel_name channel_id]
    else base

/-- The default configuration used for concrete instances: default business
hours (08:00-17:00 UTC, weekdays only), thresholds 4/24, one team member. -/
def cfg0 : MonitorConfig := { channel_owners := [], team_member_ids := ["UT"] }

def msgClient : RawMessage :=
  { ts := 100, user := some "UCLIENT", text := some "client question" }

def msgReply1 : RawMessage :=
  { ts := 200, user := some "UT", text := some "first reply" }

def msgReply2 : RawMessage :=
  { ts := 300, user := some "UT", text := some "second reply" }

/-- The configuration with an inverted business-hours window (start 17:00,
end 08:00), used as a concrete instance for the inverted-window claim. -/
def cfgInv : MonitorConfig :=
  { channel_owners := [], team_member_ids := ["UT"]
    business_hours := { start := 17 * 3600, endTime := 8 * 3600 } }

/-- Evaluating an already time-ordered message list: `mergeSort` leaves such a
list unchanged, exposing the scan directly. -/
theorem evaluate_channel_of_sorted (cfg : MonitorConfig) (messages : List RawMessage)
    (h : messages.Pairwise (fun a b => a.ts ≤ b.ts)) :
    evaluate_channel cfg messages =
      (if messages.isEmpty then none
       else
         match (messages.foldl (scan_step cfg) (none, none)).1 with
         | none => none
         | some c =>
           some { client_ts := c.ts
                  client_text := c.text.getD ""
                  team_reply_ts :=
                    (messages.foldl (scan_step cfg) (none, none)).2.map RawMessage.ts
                  team_reply_text :=
                    (messages.foldl (scan_step cfg) (none, none)).2.map
                      (fun r => r.text.getD "") }) := by
  have hs : messages.mergeSort (fun a b => decide (a.ts ≤ b.ts)) = messages := by
    apply List.mergeSort_of_sorted
    simpa using h
  simp only [evaluate_channel, hs]

theorem scan_step_client (cfg : MonitorConfig) (st : Option RawMessage × Option RawMessage)
    (m : RawMessage) (hv : is_valid_message m = true) (hc : is_client_message cfg m = true) :
    scan_step cfg st m = (some m, none) := by
  simp [scan_step, hv, hc]

/-- Scanning a block of messages none of whose valid members is a client
message keeps the client component and moves the reply component to the last
valid member of the block (if any). -/
theorem foldl_scan_no_client (cfg : MonitorConfig) :
    ∀ (replies : List RawMessage) (c : RawMessage) (r0 : Option RawMessage),
    (∀ x ∈ replies, is_valid_message x = true → is_client_message cfg x = false) →
    replies.foldl (scan_step cfg) (some c, r0) =
      (some c, ((replies.filter is_valid_message).getLast?).elim r0 some) := by
  intro replies
  induction replies with
  | nil => intro c r0 _; simp
  | cons x xs ih =>
    intro c r0 h
    by_cases hvx : is_valid_message x = true
    · have hcx : is_client_message cfg x = false := h x (by simp) hvx
      have hstep : scan_step cfg (some c, r0) x = (some c, some x) := by
        simp [scan_step, hvx, hcx]
      rw [List.foldl_cons, hstep, ih c (some x) (fun y hy => h y (by simp [hy]))]
      rw [List.filter_cons_of_pos hvx]
      cases hfl : xs.filter is_valid_message with
      | nil => simp [hfl]
      | cons y ys =>
        cases hlast : (y :: ys).getLast? with
        | none => simp at hlast
        | some b => simp [hfl, hlast]
    · have hvx' : is_valid_message x = false := by simpa using hvx
      have hstep : scan_step cfg (some c, r0) x = (some c, r0) := by
        simp [scan_step, hvx']
      rw [List.foldl_cons, hstep, ih c r0 (fun y hy => h y (by simp [hy]))]
      rw [List.filter_cons_of_neg (by simp [hvx'])]

/-- The shape of the record produced by the evaluator on a sorted list that
ends with a valid client message followed by a (possibly empty) block with no
valid client message in it. -/
theorem evaluate_channel_shape (cfg : MonitorConfig) (pre : List RawMessage)
    (m : RawMessage) (replies : List RawMessage)
    (hsort : (pre ++ m :: replies).Pairwise fun a b => a.ts ≤ b.ts)
    (hv : is_valid_message m = true) (hc : is_client_message cfg m = true)
    (hnc : ∀ x ∈ replies, is_valid_message x = true → is_client_message cfg x = false) :
    evaluate_channel cfg (pre ++ m :: replies) =
      some { client_ts := m.ts
             client_text := m.text.getD ""
             team_reply_ts :=
               ((replies.filter is_valid_message).getLast?).map RawMessage.ts
             team_reply_text :=
               ((replies.filter is_valid_message).getLast?).map
                 (fun r => r.text.getD "") } := by
  rw [evaluate_channel_of_sorted cfg _ hsort]
  rw [List.foldl_append, List.foldl_cons]
  rw [scan_step_client cfg _ m hv hc]
  rw [foldl_scan_no_client cfg replies m none hnc]
  cases hlast : (replies.filter is_valid_message).getLast? with
  | none => simp [hlast]
  | some r => simp [hlast]

/-- In a list sorted ascending by timestamp, the last element's timestamp
bounds every member's timestamp. -/
theorem getLast_ts_ge (l : List RawMessage)
    (hsort : l.Pairwise fun a b => a.ts ≤ b.ts) :
    ∀ a ∈ l, ∀ b, l.getLast? = some b → a.ts ≤ b.ts := by
  induction l with
  | nil => intro a ha; simp at ha
  | cons x xs ih =>
    intro a ha b hb
    cases xs with
    | nil =>
      simp at ha hb
      simp [ha, hb]
    | cons y ys =>
      rw [List.getLast?_cons_cons] at hb
      have hmem : b ∈ y :: ys := List.mem_of_getLast?_eq_some hb
      rcases List.mem_cons.mp ha with rfl | ha'
      · exact (List.pairwise_cons.mp hsort).1 b hmem
      · exact ih (List.pairwise_cons.mp hsort).2 a ha' b hb

/-- The threshold branch of the status decision never yields `answered`. -/
theorem threshold_branch_ne_answered (cfg : MonitorConfig) (record : ExchangeRecord)
    (now : ℚ) :
    (if threshold_for cfg now ≤ (now - record.client_ts) / 3600 then "remind"
     else "waiting") ≠ "answered" := by
  split <;> simp

/-- Complete case analysis of `_decide_status`: either the truthiness guard
and the strict-order guard both pass and the verdict is `answered`, or the
verdict is given by the threshold comparison. -/
theorem decide_status_cases (cfg : MonitorConfig) (record : ExchangeRecord) (now : ℚ) :
    ((∃ t, record.team_reply_ts = some t ∧ t ≠ 0 ∧ record.client_ts < t) ∧
       decide_status cfg record now = "answered") ∨
    ((¬ ∃ t, record.team_reply_ts = some t ∧ t ≠ 0 ∧ record.client_ts < t) ∧
       decide_status cfg record now =
         (if threshold_for cfg now ≤ (now - record.client_ts) / 3600 then "remind"
          else "waiting")) := by
  by_cases h : ∃ t, record.team_reply_ts = some t ∧ t ≠ 0 ∧ record.client_ts < t
  · left
    obtain ⟨t, ht, h0, hlt⟩ := h
    exact ⟨⟨t, ht, h0, hlt⟩, by simp [decide_status, ht, h0, hlt]⟩
  · right
    refine ⟨h, ?_⟩
    cases hts : record.team_reply_ts with
    | none => simp [decide_status, hts]
    | some t =>
      by_cases h0 : t = 0
      · simp [decide_status, hts, h0]
      · have hlt : ¬ record.client_ts < t := fun hlt => h ⟨t, hts, h0, hlt⟩
        simp [decide_status, hts, h0, hlt]

/-- Claim C1 (counterexample): in `[client@100, team@200, team@300]` the first valid
message strictly after the last client message is `msgReply1` (ts 200), yet
the returned record carries the timestamp and text of `msgReply2` (ts 300). -/
theorem evaluate_channel_keeps_latest_reply_cex :
    is_valid_message msgReply1 = true ∧
    msgClient.ts < msgReply1.ts ∧ msgReply1.ts < msgReply2.ts ∧
    evaluate_channel cfg0 [msgClient, msgReply1, msgReply2] =
      some { client_ts := msgClient.ts, client_text := "client question"
             team_reply_ts := some msgReply2.ts
             team_reply_text := some "second reply" } ∧
    (msgReply2.ts ≠ msgReply1.ts ∧ "second reply" ≠ "first reply") := by
  refine ⟨by simp [is_valid_message, msgReply1], by norm_num [msgClient, msgReply1],
    by norm_num [msgReply1, msgReply2], ?_,
    by refine ⟨by norm_num [msgReply1, msgReply2], by decide⟩⟩
  have h := evaluate_channel_shape cfg0 [] msgClient [msgReply1, msgReply2]
    (by simp [msgClient, msgReply1, msgReply2]; norm_num)
    (by simp [is_valid_message, msgClient])
    (by simp [is_client_message, cfg0, msgClient])
    (by intro x hx; simp at hx; rcases hx with hx | hx <;>
          simp [hx, is_client_message, cfg0, msgReply1, msgReply2])
  simpa [msgClient, msgReply1, msgReply2, is_valid_message] using h

/-- Claim C1 (amended): when the last valid client message of a time-ordered channel
is followed by valid team-authored messages, the record carries the timestamp
and text of the LAST valid message strictly after that client message. -/
theorem evaluate_channel_last_valid_reply (cfg : MonitorConfig)
    (pre replies : List RawMessage) (m r : RawMessage)
    (hsort : (pre ++ m :: replies).Pairwise fun a b => a.ts ≤ b.ts)
    (hv : is_valid_message m = true) (hc : is_client_message cfg m = true)
    (hnc : ∀ x ∈ replies, is_valid_message x = true → is_client_message cfg x = false)
    (hlast : (replies.filter is_valid_message).getLast? = some r) :
    evaluate_channel cfg (pre ++ m :: replies) =
      some { client_ts := m.ts, client_text := m.text.getD ""
             team_reply_ts := some r.ts
             team_reply_text := some (r.text.getD "") } := by
  rw [evaluate_channel_shape cfg pre m replies hsort hv hc hnc, hlast]
  rfl

theorem evaluate_channel_last_valid_reply_wit :
    evaluate_channel cfg0 [msgClient, msgReply1, msgReply2] =
      some { client_ts := 100, client_text := "client question"
             team_reply_ts := some 300, team_reply_text := some "second reply" } := by
  have h := evaluate_channel_last_valid_reply cfg0 [] [msgReply1, msgReply2]
    msgClient msgReply2
    (by simp [msgClient, msgReply1, msgReply2]; norm_num)
    (by simp [is_valid_message, msgClient])
    (by simp [is_client_message, cfg0, msgClient])
    (by intro x hx; simp at hx; rcases hx with hx | hx <;>
          simp [hx, is_client_message, cfg0, msgReply1, msgReply2])
    (by simp [is_valid_message, msgReply1, msgReply2])
  simpa [msgClient, msgReply2] using h

/-- Claim C2 (counterexample): a record whose reply timestamp is exactly `0.0` and
whose client timestamp is `-1` contains a team reply strictly after the client
message, yet the status decision does not return `answered` (the falsy
timestamp fails the truthiness guard). -/
theorem decide_status_answered_iff_cex :
    (ExchangeRecord.mk (-1) "" (some 0) (some "")).team_reply_ts = some 0 ∧
    ((-1 : ℚ) < 0) ∧
    decide_status cfg0 (ExchangeRecord.mk (-1) "" (some 0) (some "")) 0 ≠ "answered" := by
  refine ⟨rfl, by norm_num, ?_⟩
  rcases decide_status_cases cfg0 (ExchangeRecord.mk (-1) "" (some 0) (some "")) 0 with
    ⟨⟨t, ht, h0, _⟩, _⟩ | ⟨_, heq⟩
  · exact absurd (by injection ht with h; exact h.symm) h0
  · rw [heq]
    exact threshold_branch_ne_answered cfg0 _ 0

/-- Claim C2 (amended): the status decision returns `answered` iff the record holds
a team reply whose timestamp is nonzero and strictly after the client
timestamp; and a message list whose last valid client message (at a
nonnegative timestamp) is followed by a strictly later valid team reply yields
a record whose `team_reply_ts` exceeds `client_ts`, on which the decision is
`answered` at every instant. -/
theorem decide_status_answered_iff :
    (∀ (cfg : MonitorConfig) (record : ExchangeRecord) (now : ℚ),
       decide_status cfg record now = "answered" ↔
         ∃ t, record.team_reply_ts = some t ∧ t ≠ 0 ∧ record.client_ts < t) ∧
    (∀ (cfg : MonitorConfig) (pre replies : List RawMessage) (m r : RawMessage),
       (pre ++ m :: replies).Pairwise (fun a b => a.ts ≤ b.ts) →
       is_valid_message m = true → is_client_message cfg m = true → 0 ≤ m.ts →
       (∀ x ∈ replies, is_valid_message x = true → is_client_message cfg x = false) →
       (replies.filter is_valid_message).getLast? = some r →
       (∃ x ∈ replies, is_valid_message x = true ∧ m.ts < x.ts) →
       ∀ record, evaluate_channel cfg (pre ++ m :: replies) = some record →
         record.team_reply_ts = some r.ts ∧ record.client_ts < r.ts ∧
         ∀ now, decide_status cfg record now = "answered") := by
  constructor
  · intro cfg record now
    rcases decide_status_cases cfg record now with ⟨hex, heq⟩ | ⟨hnex, heq⟩
    · simp [heq, hex]
    · rw [heq]
      simp only [hnex, iff_false]
      exact threshold_branch_ne_answered cfg record now
  · intro cfg pre replies m r hsort hv hc hts hnc hlast hex record heval
    have hshape := evaluate_channel_shape cfg pre m replies hsort hv hc hnc
    rw [heval, hlast] at hshape
    have hrec : record =
        { client_ts := m.ts, client_text := m.text.getD ""
          team_reply_ts := some r.ts, team_reply_text := some (r.text.getD "") } :=
      Option.some.inj hshape
    obtain ⟨x, hxmem, hxv, hxlt⟩ := hex
    have hxin : x ∈ replies.filter is_valid_message := List.mem_filter.mpr ⟨hxmem, hxv⟩
    have hpw : (replies.filter is_valid_message).Pairwise (fun a b => a.ts ≤ b.ts) := by
      have h1 := (List.pairwise_append.mp hsort).2.1
      have h2 := (List.pairwise_cons.mp h1).2
      exact List.Pairwise.sublist (List.filter_sublist replies) h2
    have hle := getLast_ts_ge _ hpw x hxin r hlast
    have hmr : m.ts < r.ts := lt_of_lt_of_le hxlt hle
    have hr0 : r.ts ≠ 0 := (lt_of_le_of_lt hts hmr).ne'
    subst hrec
    refine ⟨rfl, hmr, fun now => ?_⟩
    simp [decide_status, hr0, hmr]

theorem decide_status_answered_iff_wit :
    decide_status cfg0
      (ExchangeRecord.mk 100 "client question" (some 300) (some "second reply")) 400 =
      "answered" := by
  have h := decide_status_answered_iff.2 cfg0 [] [msgReply1, msgReply2]
    msgClient msgReply2
    (by simp [msgClient, msgReply1, msgReply2]; norm_num)
    (by simp [is_valid_message, msgClient])
    (by simp [is_client_message, cfg0, msgClient])
    (by norm_num [msgClient])
    (by intro x hx; simp at hx; rcases hx with hx | hx <;>
          simp [hx, is_client_message, cfg0, msgReply1, msgReply2])
    (by simp [is_valid_message, msgReply1, msgReply2])
    ⟨msgReply1, by simp, by simp [is_valid_message, msgReply1],
      by norm_num [msgClient, msgReply1]⟩
    (ExchangeRecord.mk 100 "client question" (some 300) (some "second reply"))
    (by
      have h2 := evaluate_channel_shape cfg0 [] msgClient [msgReply1, msgReply2]
        (by simp [msgClient, msgReply1, msgReply2]; norm_num)
        (by simp [is_valid_message, msgClient])
        (by simp [is_client_message, cfg0, msgClient])
        (by intro x hx; simp at hx; rcases hx with hx | hx <;>
              simp [hx, is_client_message, cfg0, msgReply1, msgReply2])
      simpa [msgClient, msgReply1, msgReply2, is_valid_message] using h2)
  exact h.2.2 400

/-- With no recorded reply the decision can never be `answered`. -/
theorem no_reply_not_answered (cfg : MonitorConfig) (record : ExchangeRecord) (now : ℚ)
    (h : record.team_reply_ts = none) :
    decide_status cfg record now ≠ "answered" := by
  rcases decide_status_cases cfg record now with ⟨⟨t, ht, _⟩, _⟩ | ⟨_, heq⟩
  · rw [h] at ht; exact absurd ht (by simp)
  · rw [heq]; exact threshold_branch_ne_answered cfg record now

/-- With no recorded reply the decision is the threshold comparison. -/
theorem decide_status_of_no_reply (cfg : MonitorConfig) (record : ExchangeRecord)
    (now : ℚ) (h : record.team_reply_ts = none) :
    decide_status cfg record now =
      (if threshold_for cfg now ≤ (now - record.client_ts) / 3600 then "remind"
       else "waiting") := by
  rcases decide_status_cases cfg record now with ⟨⟨t, ht, _⟩, _⟩ | ⟨_, heq⟩
  · rw [h] at ht; exact absurd ht (by simp)
  · exact heq

/-- Claim C3: outside the `answered` case, the decision compares elapsed hours
`(now - client_ts)/3600` against the business-hours-dependent threshold and
returns `remind` exactly when the threshold is reached; concretely, 5 elapsed
hours yield `remind` against threshold 4 in business hours (Monday 13:00 UTC)
and `waiting` against threshold 24 outside them (Saturday 12:00 UTC). -/
theorem decide_status_threshold_rule :
    (∀ (cfg : MonitorConfig) (record : ExchangeRecord) (now : ℚ),
       decide_status cfg record now ≠ "answered" →
       ((decide_status cfg record now = "remind" ↔
           threshold_for cfg now ≤ (now - record.client_ts) / 3600) ∧
        (decide_status cfg record now = "waiting" ↔
           (now - record.client_ts) / 3600 < threshold_for cfg now))) ∧
    decide_status cfg0 (ExchangeRecord.mk 374400 "pending question" none none)
      392400 = "remind" ∧
    decide_status cfg0 (ExchangeRecord.mk 198000 "pending question" none none)
      216000 = "waiting" := by
  refine ⟨?_, ?_, ?_⟩
  · intro cfg record now h
    rcases decide_status_cases cfg record now with ⟨_, heq⟩ | ⟨_, heq⟩
    · exact absurd heq h
    · rw [heq]
      by_cases hc : threshold_for cfg now ≤ (now - record.client_ts) / 3600
      · simp [hc, not_lt.mpr hc]
      · simp [hc, not_le.mp hc]
  · rw [decide_status_of_no_reply cfg0 _ 392400 rfl]
    rw [if_pos ?_]
    have : threshold_for cfg0 392400 = 4 := by
      simp only [threshold_for, cfg0]
      rw [if_pos ?_]
      simp [BusinessHours.is_open, utcLocal]
      norm_num
    rw [this]
    norm_num
  · rw [decide_status_of_no_reply cfg0 _ 216000 rfl]
    rw [if_neg ?_]
    have : threshold_for cfg0 216000 = 24 := by
      simp only [threshold_for, cfg0]
      rw [if_neg ?_]
      simp [BusinessHours.is_open, utcLocal]
      norm_num
    rw [this]
    norm_num

theorem decide_status_threshold_rule_wit :
    decide_status cfg0 (ExchangeRecord.mk 374400 "pending question" none none)
      392400 = "remind" ∧
    (4 : ℚ) ≤ ((392400 : ℚ) - 374400) / 3600 := by
  have h := decide_status_threshold_rule.1 cfg0
    (ExchangeRecord.mk 374400 "pending question" none none) 392400
    (no_reply_not_answered cfg0 _ 392400 rfl)
  have hthr : threshold_for cfg0 392400 = 4 := by
    simp only [threshold_for, cfg0]
    rw [if_pos ?_]
    simp [BusinessHours.is_open, utcLocal]
    norm_num
  refine ⟨h.1.mpr ?_, by norm_num⟩
  rw [hthr]
  norm_num

/-- Claim C4: `is_open` converts the instant to the configured timezone's wall
clock, closes weekends when `weekdays_only`, and is otherwise open iff
`start ≤ local_time ≤ end` with both endpoints included; with the default
window (08:00-17:00, weekdays only, UTC) the Monday instants at exactly
08:00:00 and 17:00:00 are open, and every instant whose UTC weekday is
Saturday is closed. -/
theorem business_hours_is_open_spec :
    (∀ (bh : BusinessHours) (moment : ℚ),
       bh.is_open moment = true ↔
         ((bh.weekdays_only = true → (bh.timezone moment).weekday < 5) ∧
          bh.start ≤ (bh.timezone moment).tod ∧
          (bh.timezone moment).tod ≤ bh.endTime)) ∧
    BusinessHours.is_open {} 374400 = true ∧
    BusinessHours.is_open {} 406800 = true ∧
    (∀ moment : ℚ, (utcLocal moment).weekday = 5 →
       BusinessHours.is_open {} moment = false) := by
  refine ⟨?_, ?_, ?_, ?_⟩
  · intro bh moment
    simp only [BusinessHours.is_open]
    by_cases hw : bh.weekdays_only = true
    · by_cases h5 : 5 ≤ (bh.timezone moment).weekday
      · simp [hw, h5, not_lt.mpr h5]
      · simp [hw, h5, not_le.mp h5]
    · simp [hw]
  · simp [BusinessHours.is_open, utcLocal]
    norm_num
  · simp [BusinessHours.is_open, utcLocal]
    norm_num
  · intro moment h5
    simp [BusinessHours.is_open, h5]

theorem business_hours_is_open_spec_wit :
    BusinessHours.is_open {} 216000 = false := by
  apply business_hours_is_open_spec.2.2.2
  simp [utcLocal]
  norm_num

/-- Claim C5: for a record with no reply, at two instants after the client message
with the same business-hours status, a `remind` verdict at the earlier instant
forces a `remind` verdict at the later one. -/
theorem decide_status_remind_monotone (cfg : MonitorConfig) (record : ExchangeRecord)
    (now1 now2 : ℚ) (hno : record.team_reply_ts = none)
    (h12 : now1 < now2) (_hc1 : record.client_ts < now1) (_hc2 : record.client_ts < now2)
    (hopen : cfg.business_hours.is_open now1 = cfg.business_hours.is_open now2)
    (hrem : decide_status cfg record now1 = "remind") :
    decide_status cfg record now2 = "remind" := by
  rw [decide_status_of_no_reply cfg record now1 hno] at hrem
  rw [decide_status_of_no_reply cfg record now2 hno]
  have hth : threshold_for cfg now2 = threshold_for cfg now1 := by
    simp [threshold_for, hopen]
  by_cases hc : threshold_for cfg now1 ≤ (now1 - record.client_ts) / 3600
  · rw [hth, if_pos (by linarith)]
  · rw [if_neg hc] at hrem
    simp at hrem

theorem decide_status_remind_monotone_wit :
    decide_status cfg0 (ExchangeRecord.mk 345600 "pending question" none none)
      396000 = "remind" := by
  apply decide_status_remind_monotone cfg0
    (ExchangeRecord.mk 345600 "pending question" none none) 392400 396000 rfl
    (by norm_num) (by norm_num) (by norm_num) ?_ ?_
  · have h1 : cfg0.business_hours.is_open 392400 = true := by
      simp [cfg0, BusinessHours.is_open, utcLocal]
      norm_num
    have h2 : cfg0.business_hours.is_open 396000 = true := by
      simp [cfg0, BusinessHours.is_open, utcLocal]
      norm_num
    rw [h1, h2]
  · rw [decide_status_of_no_reply cfg0 _ 392400 rfl]
    rw [if_pos ?_]
    have hthr : threshold_for cfg0 392400 = 4 := by
      simp only [threshold_for, cfg0]
      rw [if_pos ?_]
      simp [BusinessHours.is_open, utcLocal]
      norm_num
    rw [hthr]
    norm_num

/-- Single-character `str.replace` is a character-wise flat map: the emitted
replacement is never rescanned. -/
theorem str_replace1_eq_flatMap (c : Char) (rep : List Char) (s : List Char) :
    str_replace1 c rep s = s.flatMap (fun x => if x = c then rep else [x]) := by
  induction s with
  | nil => rfl
  | cons x xs ih => by_cases h : x = c <;> simp [str_replace1, h, ih]

/-- Replacing one character by one character is a map. -/
theorem str_replace1_single (c r : Char) (s : List Char) :
    str_replace1 c [r] s = s.map (fun x => if x = c then r else x) := by
  induction s with
  | nil => rfl
  | cons x xs ih => by_cases h : x = c <;> simp [str_replace1, h, ih]

/-- The interior of a `csv_escape` field: newlines and carriage returns become
spaces, then each double quote is doubled. -/
theorem csv_escape_eq (s : List Char) :
    csv_escape s =
      '"' :: ((s.map fun c => if c = '\n' ∨ c = '\r' then ' ' else c).flatMap
        fun c => if c = '"' then ['"', '"'] else [c]) ++ ['"'] := by
  have hmap : ((s.map fun x => if x = '\n' then ' ' else x).map
      fun x => if x = '\r' then ' ' else x) =
      s.map (fun c => if c = '\n' ∨ c = '\r' then ' ' else c) := by
    rw [List.map_map]
    apply List.map_congr_left
    intro a _
    by_cases h1 : a = '\n' <;> by_cases h2 : a = '\r' <;>
      simp [Function.comp, h1, h2]
  simp only [csv_escape, str_replace1_single]
  rw [hmap, str_replace1_eq_flatMap]

/-- No control character (`\n` or `\r`) survives CSV escaping. -/
theorem csv_escape_ctrl_free (ch : Char) (hch : ch = '\n' ∨ ch = '\r')
    (s : List Char) : ch ∉ csv_escape s := by
  rw [csv_escape_eq]
  intro h
  rcases List.mem_cons.mp h with h | h
  · rcases hch with rfl | rfl <;> exact absurd h (by decide)
  rcases List.mem_append.mp h with h | h
  · rcases List.mem_flatMap.mp h with ⟨a, ha, hin⟩
    rcases List.mem_map.mp ha with ⟨x, _, rfl⟩
    by_cases h1 : x = '\n' ∨ x = '\r'
    · rw [if_pos h1, if_neg (by decide)] at hin
      rcases List.mem_singleton.mp hin with rfl
      rcases hch with h | h <;> exact absurd h (by decide)
    · rw [if_neg h1] at hin
      by_cases hq : x = '"'
      · rw [if_pos hq] at hin
        have hqq : ch = '"' := by
          rcases List.mem_cons.mp hin with rfl | hin2
          · rfl
          · exact List.mem_singleton.mp hin2
        rcases hch with h | h <;> exact absurd (hqq.symm.trans h) (by decide)
      · rw [if_neg hq] at hin
        rcases List.mem_singleton.mp hin with rfl
        exact h1 hch
  · rcases List.mem_singleton.mp h with rfl
    rcases hch with h | h <;> exact absurd h (by decide)

/-- Count of double quotes in the escaped interior: twice that of the input. -/
theorem csv_escape_inner_count (s : List Char) :
    ((s.map fun c => if c = '\n' ∨ c = '\r' then ' ' else c).flatMap
      fun c => if c = '"' then ['"', '"'] else [c]).count '"' = 2 * s.count '"' := by
  induction s with
  | nil => rfl
  | cons x xs ih =>
    by_cases hq : x = '"'
    · subst hq
      have hs : (if ('"' : Char) = '\n' ∨ ('"' : Char) = '\r' then ' ' else '"') = '"' := by
        decide
      simp only [List.map_cons, List.flatMap_cons, hs, if_pos rfl, List.count_append, ih,
        List.count_cons]
      simp
      omega
    · by_cases h1 : x = '\n' ∨ x = '\r'
      · have hs : (if x = '\n' ∨ x = '\r' then ' ' else x) = ' ' := if_pos h1
        have he : (if (' ' : Char) = '"' then ['"', '"'] else [' ']) = [' '] := by decide
        simp only [List.map_cons, List.flatMap_cons, hs, he, List.count_append, ih,
          List.count_cons, List.count_nil]
        simp [hq]
      · have hs : (if x = '\n' ∨ x = '\r' then ' ' else x) = x := if_neg h1
        have he : (if x = '"' then ['"', '"'] else [x]) = [x] := if_neg hq
        simp only [List.map_cons, List.flatMap_cons, hs, he, List.count_append, ih,
          List.count_cons, List.count_nil]
        simp [hq]

/-- Claim C6: for every input, `_csv_escape` yields a single quoted field: it starts
and ends with a double quote, its interior is the input with newlines and
carriage returns turned into spaces and each double quote doubled, the result
contains no newline or carriage return, and the number of quote characters is
twice the input's plus the two delimiters; concretely on `a"\nb`. -/
theorem csv_escape_spec :
    (∀ s : List Char,
       (csv_escape s).head? = some '"' ∧
       (csv_escape s).getLast? = some '"' ∧
       '\n' ∉ csv_escape s ∧ '\r' ∉ csv_escape s ∧
       csv_escape s =
         '"' :: ((s.map fun c => if c = '\n' ∨ c = '\r' then ' ' else c).flatMap
           fun c => if c = '"' then ['"', '"'] else [c]) ++ ['"'] ∧
       (csv_escape s).count '"' = 2 * s.count '"' + 2) ∧
    csv_escape ['a', '"', '\n', 'b'] = ['"', 'a', '"', '"', ' ', 'b', '"'] := by
  refine ⟨fun s => ⟨?_, ?_, csv_escape_ctrl_free '\n' (Or.inl rfl) s,
    csv_escape_ctrl_free '\r' (Or.inr rfl) s, csv_escape_eq s, ?_⟩, by decide⟩
  · rw [csv_escape_eq]; rfl
  · rw [csv_escape_eq, show
      ('"' :: ((s.map fun c => if c = '\n' ∨ c = '\r' then ' ' else c).flatMap
        fun c => if c = '"' then ['"', '"'] else [c]) ++ ['"']) =
      (('"' :: (s.map fun c => if c = '\n' ∨ c = '\r' then ' ' else c).flatMap
        fun c => if c = '"' then ['"', '"'] else [c]) ++ ['"']) from rfl]
    exact List.getLast?_concat _
  · rw [csv_escape_eq]
    simp only [List.count_cons, List.count_append, csv_escape_inner_count,
      List.count_nil]
    simp

/-- Claim C7: owner resolution tries the channel id as a `channel_owners` key first
and falls back to the channel name; id-keyed entries shadow name-keyed ones,
and with neither key present no owner is resolved. -/
theorem resolve_owner_spec :
    ∀ (owners : List (String × String)) (ch : ChannelInfo),
      (∀ i o, ch.id = some i → dict_get owners i = some o →
         resolve_owner owners ch = some o) ∧
      (∀ n o, effective_channel_name ch = some n → n ≠ "" →
         (∀ i, ch.id = some i → dict_get owners i = none) →
         dict_get owners n = some o → resolve_owner owners ch = some o) ∧
      ((∀ i, ch.id = some i → dict_get owners i = none) →
       (∀ n, effective_channel_name ch = some n → n ≠ "" → dict_get owners n = none) →
       resolve_owner owners ch = none) := by
  intro owners ch
  have hbind : ∀ (h : ∀ i, ch.id = some i → dict_get owners i = none),
      ch.id.bind (dict_get owners) = none := by
    intro h
    cases hid : ch.id with
    | none => rfl
    | some i => simpa using h i hid
  refine ⟨?_, ?_, ?_⟩
  · intro i o hid hlook
    simp [resolve_owner, hid, hlook]
  · intro n o hname hne hid hlook
    rw [resolve_owner, hbind hid, hname]
    simp [hne, hlook]
  · intro hid hname
    rw [resolve_owner, hbind hid]
    cases hn : effective_channel_name ch with
    | none => rfl
    | some n =>
      by_cases hne : n = ""
      · simp [hne]
      · simp [hne, hname n hn hne]

theorem resolve_owner_spec_wit :
    resolve_owner [("general", "UOWN")] (ChannelInfo.mk (some "C1") (some "general") none) =
      some "UOWN" := by
  apply (resolve_owner_spec [("general", "UOWN")]
    (ChannelInfo.mk (some "C1") (some "general") none)).2.1 "general" "UOWN"
  · rfl
  · decide
  · intro i hi
    injection hi with hi
    rw [← hi]
    rfl
  · rfl

/-- Claim C8: when a channel evaluates to `remind`, the summary row and trail row
(both carrying status `remind`) are always written first; then exactly one
reminder DM is attempted when a truthy owner is configured, and with no
(truthy) owner only a warning is logged and no reminder is attempted. -/
theorem process_channel_remind_spec :
    ∀ (cfg : MonitorConfig) (now : ℚ) (cid cname : String) (owner : Option String)
      (messages : List RawMessage) (record : ExchangeRecord),
      evaluate_channel cfg messages = some record →
      decide_status cfg record now = "remind" →
      ((∀ o, owner = some o → o ≠ "" →
          process_channel cfg now cid cname owner messages =
            [Effect.summary_row cname cid record "remind",
             Effect.trail_row cname cid record "remind",
             Effect.reminder_dm cid o] ∧
          (process_channel cfg now cid cname owner messages).countP
            (fun e => match e with | Effect.reminder_dm _ _ => true | _ => false) = 1) ∧
       ((owner = none ∨ owner = some "") →
          process_channel cfg now cid cname owner messages =
            [Effect.summary_row cname cid record "remind",
             Effect.trail_row cname cid record "remind",
             Effect.warn_no_owner cname cid] ∧
          (process_channel cfg now cid cname owner messages).countP
            (fun e => match e with | Effect.reminder_dm _ _ => true | _ => false) = 0)) := by
  intro cfg now cid cname owner messages record heval hst
  have hpc : process_channel cfg now cid cname owner messages =
      (let status := decide_status cfg record now
       let base := [Effect.summary_row cname cid record status,
                    Effect.trail_row cname cid record status]
       if status = "remind" then
         match owner with
         | some o =>
           if o = "" then base ++ [Effect.warn_no_owner cname cid]
           else base ++ [Effect.reminder_dm cid o]
         | none => base ++ [Effect.warn_no_owner cname cid]
       else base) := by
    simp only [process_channel, heval]
  constructor
  · intro o ho hno
    subst ho
    rw [hpc]
    simp only [hst, if_pos rfl, if_neg hno]
    exact ⟨rfl, rfl⟩
  · intro ho
    rcases ho with rfl | rfl
    · rw [hpc]
      simp only [hst, if_pos rfl]
      exact ⟨rfl, rfl⟩
    · rw [hpc]
      simp only [hst, if_pos rfl, if_pos rfl]
      exact ⟨rfl, rfl⟩

theorem process_channel_remind_spec_wit :
    process_channel cfg0 392400 "C1" "general" (some "UOWN")
      [RawMessage.mk 374400 (some "UCLIENT") none none (some "help")] =
      [Effect.summary_row "general" "C1"
         (ExchangeRecord.mk 374400 "help" none none) "remind",
       Effect.trail_row "general" "C1"
         (ExchangeRecord.mk 374400 "help" none none) "remind",
       Effect.reminder_dm "C1" "UOWN"] := by
  have heval : evaluate_channel cfg0
      [RawMessage.mk 374400 (some "UCLIENT") none none (some "help")] =
      some (ExchangeRecord.mk 374400 "help" none none) := by
    have h := evaluate_channel_shape cfg0 []
      (RawMessage.mk 374400 (some "UCLIENT") none none (some "help")) []
      (by simp) (by simp [is_valid_message]) (by simp [is_client_message, cfg0])
      (by intro x hx; simp at hx)
    simpa using h
  have hst : decide_status cfg0 (ExchangeRecord.mk 374400 "help" none none)
      392400 = "remind" := by
    rw [decide_status_of_no_reply cfg0 _ 392400 rfl]
    rw [if_pos ?_]
    have hthr : threshold_for cfg0 392400 = 4 := by
      simp only [threshold_for, cfg0]
      rw [if_pos ?_]
      simp [BusinessHours.is_open, utcLocal]
      norm_num
    rw [hthr]
    norm_num
  exact ((process_channel_remind_spec cfg0 392400 "C1" "general" (some "UOWN")
    [RawMessage.mk 374400 (some "UCLIENT") none none (some "help")]
    (ExchangeRecord.mk 374400 "help" none none) heval hst).1 "UOWN" rfl
    (by decide)).1

/-- Claim C9: a start-of-window later than the end-of-window makes `is_open`
constantly false, so the status decision always compares against
`overall_reply_hours`. -/
theorem is_open_start_gt_end_spec :
    ∀ (bh : BusinessHours), bh.endTime < bh.start →
      (∀ moment : ℚ, bh.is_open moment = false) ∧
      (∀ (cfg : MonitorConfig) (record : ExchangeRecord) (now : ℚ),
         cfg.business_hours = bh →
         decide_status cfg record now ≠ "answered" →
         decide_status cfg record now =
           (if cfg.overall_reply_hours ≤ (now - record.client_ts) / 3600 then "remind"
            else "waiting")) := by
  intro bh hlt
  have hopen : ∀ moment : ℚ, bh.is_open moment = false := by
    intro moment
    simp only [BusinessHours.is_open]
    split
    · rfl
    · simp only [decide_eq_false_iff_not]
      rintro ⟨h1, h2⟩
      exact absurd (le_trans h1 h2) (not_le.mpr hlt)
  refine ⟨hopen, ?_⟩
  intro cfg record now hcfg h
  rcases decide_status_cases cfg record now with ⟨_, heq⟩ | ⟨_, heq⟩
  · exact absurd heq h
  · rw [heq]
    have hthr : threshold_for cfg now = cfg.overall_reply_hours := by
      simp [threshold_for, hcfg, hopen now]
    rw [hthr]

theorem is_open_start_gt_end_spec_wit :
    cfgInv.business_hours.is_open 392400 = false ∧
    decide_status cfgInv (ExchangeRecord.mk 374400 "pending question" none none)
      392400 = "waiting" := by
  have h := is_open_start_gt_end_spec cfgInv.business_hours (by norm_num [cfgInv])
  refine ⟨h.1 392400, ?_⟩
  rw [h.2 cfgInv (ExchangeRecord.mk 374400 "pending question" none none) 392400 rfl
    (no_reply_not_answered cfgInv _ 392400 rfl)]
  rw [if_neg ?_]
  show ¬ cfgInv.overall_reply_hours ≤ ((392400 : ℚ) - 374400) / 3600
  norm_num [cfgInv]

/-- Claim C10: a recorded reply timestamp of exactly `0.0` (the epoch) is treated as
if no reply existed: the decision is never `answered` and falls through to the
elapsed-hours threshold comparison. -/
theorem decide_status_epoch_reply_spec :
    ∀ (cfg : MonitorConfig) (record : ExchangeRecord) (now : ℚ),
      record.team_reply_ts = some 0 →
      decide_status cfg record now ≠ "answered" ∧
      decide_status cfg record now =
        (if threshold_for cfg now ≤ (now - record.client_ts) / 3600 then "remind"
         else "waiting") := by
  intro cfg record now hzero
  rcases decide_status_cases cfg record now with ⟨⟨t, ht, h0, _⟩, _⟩ | ⟨_, heq⟩
  · rw [hzero] at ht
    injection ht with ht
    exact absurd ht.symm h0
  · exact ⟨heq ▸ threshold_branch_ne_answered cfg record now, heq⟩

theorem decide_status_epoch_reply_spec_wit :
    decide_status cfg0 (ExchangeRecord.mk 374400 "pending question" (some 0) (some ""))
      392400 = "remind" ∧
    decide_status cfg0 (ExchangeRecord.mk 374400 "pending question" (some 0) (some ""))
      392400 ≠ "answered" := by
  have h := decide_status_epoch_reply_spec cfg0
    (ExchangeRecord.mk 374400 "pending question" (some 0) (some "")) 392400 rfl
  refine ⟨?_, h.1⟩
  rw [h.2]
  rw [if_pos ?_]
  have hthr : threshold_for cfg0 392400 = 4 := by
    simp only [threshold_for, cfg0]
    rw [if_pos ?_]
    simp [BusinessHours.is_open, utcLocal]
    norm_num
  rw [hthr]
  norm_num
